import Mathlib

/-!
Verification of the record-matching / identifier-normalization core of the
`dasboard_comparador_excel` repository (files `dashboard_comparar_excel.py`
and `2.py`).

Modelling conventions (shallow embedding, Python → Lean):

* A spreadsheet cell value is `Option (List Char)`: `none` models a
  missing value (pandas `NaN` / Python `None`), `some s` a string cell
  whose text is the character list `s`.
* Python string primitives are modelled over `List Char`:
  `str.strip()` is `pyStrip` (both ends, Python's whitespace set
  `pyIsSpace`), `str.upper()` is `pyUpper` (ASCII letters, as Lean's
  `Char.toUpper`; the code only targets identifier-like ASCII strings),
  `str.replace(c, "")` is `pyRemove c`, `str.isdigit()` is `pyIsdigit`
  (nonempty, all `0`-`9`), `str.lower()` is `pyLower`.
* Fallible results (`return None`) are `Option`.
-/

/-- The character set Python's `str.strip()` removes (CPython's
whitespace predicate): 0x09-0x0D (tab, LF, VT, FF, CR), 0x1C-0x1F,
space, NEL (0x85), NBSP (0xA0) and the Unicode space characters
(0x1680, 0x2000-0x200A, 0x2028, 0x2029, 0x202F, 0x205F, 0x3000). -/
def pyIsSpace (c : Char) : Bool :=
  decide ((9 ≤ c.toNat ∧ c.toNat ≤ 13) ∨ (28 ≤ c.toNat ∧ c.toNat ≤ 32) ∨
    c.toNat = 133 ∨ c.toNat = 160 ∨ c.toNat = 5760 ∨
    (8192 ≤ c.toNat ∧ c.toNat ≤ 8202) ∨ c.toNat = 8232 ∨ c.toNat = 8233 ∨
    c.toNat = 8239 ∨ c.toNat = 8287 ∨ c.toNat = 12288)

/-- Python `str.strip()`: drop Python-whitespace from both ends. -/
def pyStrip (l : List Char) : List Char :=
  ((l.dropWhile pyIsSpace).reverse.dropWhile pyIsSpace).reverse

/-- Python `str.upper()` restricted to ASCII, as in the identifiers the code handles. -/
def pyUpper (l : List Char) : List Char :=
  l.map Char.toUpper

/-- Python `str.lower()` restricted to ASCII. -/
def pyLower (l : List Char) : List Char :=
  l.map Char.toLower

/-- Python `s.replace(c, "")`: remove every occurrence of the character `c`. -/
def pyRemove (c : Char) (l : List Char) : List Char :=
  l.filter (fun d => d ≠ c)

/-- Python `str.isdigit()` on ASCII text: nonempty and all characters `0`-`9`. -/
def pyIsdigit (l : List Char) : Bool :=
  !l.isEmpty && l.all Char.isDigit

/-- The cleaning pipeline of `normalizar_valor`:
`str(valor).strip().upper().replace(" ", "").replace(".", "")`. -/
def limpiar (s : List Char) : List Char :=
  pyRemove '.' (pyRemove ' ' (pyUpper (pyStrip s)))

/-- `normalizar_valor` (dashboard_comparar_excel.py lines 63-73, 2.py lines 288-298).
`pd.isna(valor)` is the `none` case.  The string case applies
`.strip().upper().replace(" ", "").replace(".", "")` and then the two
ISSN-shaped special cases. -/
def normalizar_valor (valor : Option (List Char)) : List Char :=
  match valor with
  | none => []
  | some s =>
    let v := limpiar s
    if v.length = 9 ∧ v.getD 4 ' ' = '-' then v
    else if pyIsdigit v ∧ v.length = 8 then v.take 4 ++ '-' :: v.drop 4
    else v

/-- `formatear_issn_para_api` (dashboard_comparar_excel.py lines 76-84, 2.py
lines 301-308).  `issn_limpio = str(issn).replace("-", "").replace(" ", "").strip()`;
the second branch tests the ORIGINAL argument `issn`. -/
def formatear_issn_para_api (issn : List Char) : Option (List Char) :=
  let issn_limpio := pyStrip (pyRemove ' ' (pyRemove '-' issn))
  if issn_limpio.length = 8 ∧ pyIsdigit issn_limpio then
    some (issn_limpio.take 4 ++ '-' :: issn_limpio.drop 4)
  else if issn.length = 9 ∧ issn.getD 4 ' ' = '-' then some issn
  else none

/-- The guard `if valor and str(valor).lower() != "nan"` of
`generar_clave_prioritaria`.  `none` (pandas `NaN`) fails it: `NaN` is truthy
in Python but `str(nan).lower() == "nan"` (and a `None` cell is falsy), so
either way a missing value is rejected. -/
def valorValido (valor : Option (List Char)) : Bool :=
  match valor with
  | none => false
  | some s => !s.isEmpty && !(pyLower s == "nan".data)

/-- The `if normalizar: valor = normalizar_valor(valor)` step: after
normalization the value is always a (possibly empty) string. -/
def aplicarNormalizacion (normalizar : Bool) (valor : Option (List Char)) :
    Option (List Char) :=
  if normalizar then some (normalizar_valor valor) else valor

/-- `generar_clave_prioritaria` (dashboard_comparar_excel.py lines 87-95,
2.py lines 311-319): first column whose (possibly normalized) value passes
the validity guard; `None` if none does.  A row is a total map from column
identifiers to cell values. -/
def generar_clave_prioritaria (row : Nat → Option (List Char))
    (columnas : List Nat) (normalizar : Bool) : Option (List Char) :=
  match columnas with
  | [] => none
  | col :: rest =>
    let valor := aplicarNormalizacion normalizar (row col)
    if valorValido valor then valor
    else generar_clave_prioritaria row rest normalizar

/-- Modelled from the spec: the repository is described as a family of
near-duplicate variants, and the variant implementing the *combined* key
policy (§4.2: "for each column in order, read the value, skip if empty or
missing-marker; otherwise apply Normalizer if `normalize` is true and add
to a set; after processing all columns, if the set is non-empty, sort its
members and join with a fixed separator (`|`) to form the key; else return
null") is not among the files under `src/`, which only contain the
priority-policy generator.  The collected set is modelled as the
deduplicated list of processed values, sorted before joining. -/
def generar_clave_combinada (row : Nat → Option (List Char))
    (columnas : List Nat) (normalizar : Bool) : Option (List Char) :=
  let vals := (columnas.filterMap fun col =>
    let v := row col
    if valorValido v then
      some (if normalizar then normalizar_valor v else v.getD [])
    else none).dedup
  if vals.isEmpty then none
  else some (List.intercalate ['|'] (List.insertionSort (· ≤ ·) vals))

/-- Fuel-indexed chunking loop.  With `0 < bs` and fuel `≥ l.length` it
produces exactly the slices `l[i:i+bs]` for `i in range(0, len(l), bs)`:
each step emits `l.take bs = l[0:bs]` and continues on `l.drop bs`. -/
def lotesAux (bs : Nat) : Nat → List α → List (List α)
  | 0, _ => []
  | _, [] => []
  | fuel + 1, l => l.take bs :: lotesAux bs fuel (l.drop bs)

/-- The batch split `for i in range(0, len(issn_list), batch_size):
lote = issn_list[i:i + batch_size]` (dashboard_comparar_excel.py line 151,
2.py line 355), abstracted over the batch size. -/
def listaEnLotes (bs : Nat) (l : List α) : List (List α) :=
  lotesAux bs l.length l

/-- Outcome of one `requests.get` call, as the code distinguishes them:
HTTP 200 with parsed result items, HTTP 429, any other status code, or a
raised exception (network fault). -/
inductive RespuestaHttp (I : Type) where
  | ok (items : List I)
  | rateLimited
  | otherStatus (code : Nat)
  | netError

/-- Observable trace of `consultar_openalex_batch`: the key lists sent to
the API, one entry per HTTP request issued in order, and the accumulated
result records. -/
structure TrazaLotes (K I : Type) where
  requests : List (List K)
  resultados : List I

/-- The guard `if not correo_openalex or "@" not in correo_openalex`
(2.py line 345): the email is `None`, empty (falsy) or lacks `@`. -/
def correoValido (correo : Option (List Char)) : Bool :=
  match correo with
  | none => false
  | some s => !s.isEmpty && s.contains '@'

/-- Items contributed by the `t`-th loop iteration of
`consultar_openalex_batch` (2.py lines 361-383): only an HTTP 200 response
extends `resultados`; 429 sleeps and hits `continue`, which advances the
`for` loop to the NEXT batch; any other status or an exception falls
through with no items.  Exactly one request is issued per batch. -/
def itemsDeLote (resp : Nat → RespuestaHttp I) (t : Nat) : List I :=
  match resp t with
  | .ok items => items
  | _ => []

/-- `consultar_openalex_batch` (2.py lines 335-388), over an oracle `resp`
giving the outcome of the `t`-th HTTP request.  The two guards return an
empty dataframe before any request; otherwise the loop issues one request
per batch of 50 keys.  (The dashboard_comparar_excel.py variant adds a 403
branch that `break`s the loop; the 429 and fall-through branches, lines
185-193, are the same.) -/
def consultar_openalex_batch (resp : Nat → RespuestaHttp I)
    (issn_list : List K) (correo : Option (List Char)) : TrazaLotes K I :=
  if issn_list.isEmpty then ⟨[], []⟩
  else if !correoValido correo then ⟨[], []⟩
  else
    let lotes := listaEnLotes 50 issn_list
    ⟨lotes, ((List.range lotes.length).map (itemsDeLote resp)).flatten⟩

/-- The keys of source table `i` after key derivation:
`tables` is the list of dataframes, each row reduced to its derived
`__clave__` cell (`none` = key `None`, dropped by
`df.dropna(subset=["__clave__"])` before matching). -/
def clavesDe (tables : List (List (Option K))) (i : Nat) : List (Option K) :=
  tables.getD i []

/-- `conteo = claves.groupby("__clave__")["IdxArchivo"].nunique()`
(2.py lines 950-955, dashboard_comparar_excel.py lines 340-342): the
number of distinct source tables holding a surviving record with key `k`. -/
def conteo [DecidableEq K] (tables : List (List (Option K))) (k : K) : Nat :=
  ((List.range tables.length).filter
    (fun i => decide (some k ∈ clavesDe tables i))).length

/-- `claves_comunes = conteo[conteo > 1].index` (2.py line 957). -/
def esClaveComun [DecidableEq K] (tables : List (List (Option K))) (k : K) : Bool :=
  decide (1 < conteo tables k)

/-- `claves_exclusivas = conteo[conteo == 1].index` (2.py line 958). -/
def esClaveExclusiva [DecidableEq K] (tables : List (List (Option K))) (k : K) : Bool :=
  decide (conteo tables k = 1)

/-- Row positions of table `i` selected by
`df[df["__clave__"].isin(claves_comunes)]` (2.py line 965): surviving rows
whose key is shared.  A row with key `none` was dropped by `dropna` and is
never selected. -/
def coincidenciasDe [DecidableEq K] (tables : List (List (Option K))) (i : Nat) :
    List Nat :=
  (List.range (clavesDe tables i).length).filter fun j =>
    match (clavesDe tables i).getD j none with
    | none => false
    | some k => esClaveComun tables k

/-- Row positions of table `i` selected by
`df[df["__clave__"].isin(claves_exclusivas)]` (2.py line 969). -/
def exclusivosDe [DecidableEq K] (tables : List (List (Option K))) (i : Nat) :
    List Nat :=
  (List.range (clavesDe tables i).length).filter fun j =>
    match (clavesDe tables i).getD j none with
    | none => false
    | some k => esClaveExclusiva tables k

/-- `coincidencias_total = pd.concat(coincidencias_por_archivo)` (2.py
lines 961-974): the shared partition, each row tagged with its source
table index, sources concatenated in input order. -/
def coincidencias_total [DecidableEq K] (tables : List (List (Option K))) :
    List (Nat × Nat) :=
  ((List.range tables.length).map fun i =>
    (coincidenciasDe tables i).map fun j => (i, j)).flatten

/-- The distinct set of source-table indices holding a surviving record
with key `k` (the spec's Key Index entry for `k`). -/
def fuentesDeClave [DecidableEq K] (tables : List (List (Option K))) (k : K) :
    Finset Nat :=
  ((List.range tables.length).filter
    (fun i => decide (some k ∈ clavesDe tables i))).toFinset

/-! ### Helper lemmas -/

theorem getD_eq_some_lt {K : Type} {l : List (Option K)} {j : Nat} {k : K}
    (h : l.getD j none = some k) : j < l.length := by
  by_contra hlt
  rw [List.getD_eq_getElem?_getD, List.getElem?_eq_none (by omega)] at h
  simp at h

theorem getD_eq_some_mem {K : Type} {l : List (Option K)} {j : Nat} {k : K}
    (h : l.getD j none = some k) : some k ∈ l := by
  rw [List.getD_eq_getElem?_getD] at h
  cases he : l[j]? with
  | none => rw [he] at h; simp at h
  | some v =>
    rw [he] at h
    simp at h
    exact h ▸ List.getElem?_mem he

theorem lotesAux_flatten {α : Type} {bs : Nat} (hbs : 0 < bs) :
    ∀ (fuel : Nat) (l : List α), l.length ≤ fuel →
      (lotesAux bs fuel l).flatten = l := by
  intro fuel
  induction fuel with
  | zero =>
    intro l hl
    have : l = [] := List.eq_nil_of_length_eq_zero (Nat.le_zero.mp hl)
    subst this
    rfl
  | succ n ih =>
    intro l hl
    cases l with
    | nil => rfl
    | cons x xs =>
      show ((x :: xs).take bs :: lotesAux bs n ((x :: xs).drop bs)).flatten = x :: xs
      rw [List.flatten_cons, ih _ (by simp only [List.length_drop]; simp at hl ⊢; omega)]
      exact List.take_append_drop bs (x :: xs)

theorem lotesAux_mem_length {α : Type} {bs : Nat} :
    ∀ (fuel : Nat) (l : List α), ∀ c ∈ lotesAux bs fuel l, c.length ≤ bs := by
  intro fuel
  induction fuel with
  | zero => intro l c hc; simp [lotesAux] at hc
  | succ n ih =>
    intro l c hc
    cases l with
    | nil => simp [lotesAux] at hc
    | cons x xs =>
      rcases List.mem_cons.mp hc with h | h
      · subst h; exact Nat.le_trans (Nat.le_of_eq (List.length_take ..)) (Nat.min_le_left ..)
      · exact ih _ c h

theorem charToNat_ofNat {n : Nat} (h : n < 55296) : (Char.ofNat n).toNat = n := by
  have hv : n.isValidChar := Or.inl h
  rw [Char.ofNat, dif_pos hv]
  rfl

theorem toUpper_eq_or (c : Char) :
    Char.toUpper c = c ∨
      (65 ≤ (Char.toUpper c).toNat ∧ (Char.toUpper c).toNat ≤ 90) := by
  simp only [Char.toUpper]
  by_cases h : c.toNat ≥ 97 ∧ c.toNat ≤ 122
  · right
    rw [if_pos h, charToNat_ofNat (by omega)]
    omega
  · left
    rw [if_neg h]

theorem toUpper_fix {c : Char} (h : ¬(c.toNat ≥ 97 ∧ c.toNat ≤ 122)) :
    Char.toUpper c = c := by
  simp only [Char.toUpper]
  rw [if_neg h]

theorem toUpper_idem (c : Char) :
    Char.toUpper (Char.toUpper c) = Char.toUpper c := by
  rcases toUpper_eq_or c with h | h
  · rw [h]
    exact h
  · exact toUpper_fix (by omega)

theorem pyIsSpace_toNat {c : Char} (h : pyIsSpace c = true) :
    (9 ≤ c.toNat ∧ c.toNat ≤ 13) ∨ (28 ≤ c.toNat ∧ c.toNat ≤ 32) ∨
    c.toNat = 133 ∨ c.toNat = 160 ∨ c.toNat = 5760 ∨
    (8192 ≤ c.toNat ∧ c.toNat ≤ 8202) ∨ c.toNat = 8232 ∨ c.toNat = 8233 ∨
    c.toNat = 8239 ∨ c.toNat = 8287 ∨ c.toNat = 12288 := by
  simpa [pyIsSpace] using h

theorem mem_pyStrip {c : Char} {l : List Char} (h : c ∈ pyStrip l) : c ∈ l := by
  unfold pyStrip at h
  rw [List.mem_reverse] at h
  have h2 := (List.dropWhile_sublist _).subset h
  rw [List.mem_reverse] at h2
  exact (List.dropWhile_sublist _).subset h2

theorem mem_limpiar {c : Char} {s : List Char} (h : c ∈ limpiar s) :
    c ≠ '.' ∧ c ≠ ' ' ∧ ∃ d ∈ s, c = Char.toUpper d := by
  unfold limpiar pyRemove pyUpper at h
  obtain ⟨h1, hdot⟩ := List.mem_filter.mp h
  obtain ⟨h2, hsp⟩ := List.mem_filter.mp h1
  obtain ⟨d, hd, rfl⟩ := List.mem_map.mp h2
  exact ⟨by simpa using hdot, by simpa using hsp, d, mem_pyStrip hd, rfl⟩

theorem dropWhile_eq_self_of_none {p : Char → Bool} {l : List Char}
    (h : ∀ c ∈ l, p c = false) : l.dropWhile p = l := by
  cases l with
  | nil => rfl
  | cons a t => simp [List.dropWhile_cons, h a (List.mem_cons_self ..)]

theorem pyStrip_eq_self {l : List Char} (h : ∀ c ∈ l, pyIsSpace c = false) :
    pyStrip l = l := by
  unfold pyStrip
  rw [dropWhile_eq_self_of_none h,
    dropWhile_eq_self_of_none (fun c hc => h c (List.mem_reverse.mp hc))]
  exact List.reverse_reverse l

theorem map_eq_self_of {f : Char → Char} {l : List Char}
    (h : ∀ c ∈ l, f c = c) : l.map f = l := by
  induction l with
  | nil => rfl
  | cons a t ih =>
    rw [List.map_cons, h a (List.mem_cons_self ..),
      ih (fun c hc => h c (List.mem_cons_of_mem _ hc))]

theorem pyRemove_eq_self {x : Char} {l : List Char} (h : ∀ c ∈ l, c ≠ x) :
    pyRemove x l = l := by
  unfold pyRemove
  exact List.filter_eq_self.mpr (fun a ha => by simpa using h a ha)

theorem limpiar_fix {t : List Char}
    (hws : ∀ c ∈ t, pyIsSpace c = false)
    (hup : ∀ c ∈ t, Char.toUpper c = c)
    (hdot : ∀ c ∈ t, c ≠ '.') (hsp : ∀ c ∈ t, c ≠ ' ') :
    limpiar t = t := by
  unfold limpiar pyUpper
  rw [pyStrip_eq_self hws, map_eq_self_of hup, pyRemove_eq_self hsp,
    pyRemove_eq_self hdot]

theorem limpiar_char_facts {s : List Char}
    (hv : ∀ c ∈ s, pyIsSpace c = true → c = ' ') :
    (∀ c ∈ limpiar s, pyIsSpace c = false) ∧
    (∀ c ∈ limpiar s, Char.toUpper c = c) ∧
    (∀ c ∈ limpiar s, c ≠ '.') ∧ (∀ c ∈ limpiar s, c ≠ ' ') := by
  refine ⟨?_, ?_, fun c hc => (mem_limpiar hc).1, fun c hc => (mem_limpiar hc).2.1⟩
  · intro c hc
    obtain ⟨hdot, hsp, d, hd, rfl⟩ := mem_limpiar hc
    by_contra hw
    have hw2 : pyIsSpace (Char.toUpper d) = true := by simpa using hw
    rcases toUpper_eq_or d with he | he
    · rw [he] at hw2 hsp
      exact hsp (hv d hd hw2)
    · rcases pyIsSpace_toNat hw2 with h | h | h | h | h | h | h | h | h | h | h <;>
        omega
  · intro c hc
    obtain ⟨_, _, d, _, rfl⟩ := mem_limpiar hc
    exact toUpper_idem d

theorem limpiar_fix_guion {t : List Char}
    (hws : ∀ c ∈ t, pyIsSpace c = false)
    (hup : ∀ c ∈ t, Char.toUpper c = c)
    (hdot : ∀ c ∈ t, c ≠ '.') (hsp : ∀ c ∈ t, c ≠ ' ') :
    limpiar (t.take 4 ++ '-' :: t.drop 4) = t.take 4 ++ '-' :: t.drop 4 := by
  have hmem : ∀ c ∈ t.take 4 ++ '-' :: t.drop 4, c ∈ t ∨ c = '-' := by
    intro c hc
    rcases List.mem_append.mp hc with h | h
    · exact Or.inl ((List.take_sublist _ _).subset h)
    · rcases List.mem_cons.mp h with h | h
      · exact Or.inr h
      · exact Or.inl ((List.drop_sublist _ _).subset h)
  refine limpiar_fix (fun c hc => ?_) (fun c hc => ?_) (fun c hc => ?_)
    (fun c hc => ?_)
  · rcases hmem c hc with h | h
    · exact hws c h
    · subst h; decide
  · rcases hmem c hc with h | h
    · exact hup c h
    · subst h; decide
  · rcases hmem c hc with h | h
    · exact hdot c h
    · subst h; decide
  · rcases hmem c hc with h | h
    · exact hsp c h
    · subst h; decide

theorem lt_of_clavesDe_getD {K : Type} {tables : List (List (Option K))}
    {i j : Nat} {k : K} (h : (clavesDe tables i).getD j none = some k) :
    i < tables.length := by
  by_contra hi
  have he : clavesDe tables i = [] := by
    unfold clavesDe
    rw [List.getD_eq_getElem?_getD, List.getElem?_eq_none (by omega)]
    rfl
  rw [he] at h
  simp at h

theorem conteo_pos {K : Type} [DecidableEq K] {tables : List (List (Option K))}
    {k : K} {i : Nat} (hi : i < tables.length) (hm : some k ∈ clavesDe tables i) :
    0 < conteo tables k := by
  unfold conteo
  have hmem : i ∈ (List.range tables.length).filter
      (fun i2 => decide (some k ∈ clavesDe tables i2)) :=
    List.mem_filter.mpr ⟨List.mem_range.mpr hi, by simpa⟩
  exact List.length_pos.mpr (List.ne_nil_of_mem hmem)

theorem mem_coincidenciasDe_iff {K : Type} [DecidableEq K]
    {tables : List (List (Option K))} {i j : Nat} :
    j ∈ coincidenciasDe tables i ↔
      ∃ k, (clavesDe tables i).getD j none = some k ∧
        esClaveComun tables k = true := by
  unfold coincidenciasDe
  rw [List.mem_filter, List.mem_range]
  constructor
  · rintro ⟨hj, hc⟩
    cases hk : (clavesDe tables i).getD j none with
    | none => rw [hk] at hc; simp at hc
    | some k => rw [hk] at hc; exact ⟨k, rfl, hc⟩
  · rintro ⟨k, hk, hc⟩
    refine ⟨getD_eq_some_lt hk, ?_⟩
    rw [hk]
    exact hc

theorem mem_exclusivosDe_iff {K : Type} [DecidableEq K]
    {tables : List (List (Option K))} {i j : Nat} :
    j ∈ exclusivosDe tables i ↔
      ∃ k, (clavesDe tables i).getD j none = some k ∧
        esClaveExclusiva tables k = true := by
  unfold exclusivosDe
  rw [List.mem_filter, List.mem_range]
  constructor
  · rintro ⟨hj, hc⟩
    cases hk : (clavesDe tables i).getD j none with
    | none => rw [hk] at hc; simp at hc
    | some k => rw [hk] at hc; exact ⟨k, rfl, hc⟩
  · rintro ⟨k, hk, hc⟩
    refine ⟨getD_eq_some_lt hk, ?_⟩
    rw [hk]
    exact hc

theorem mem_coincidencias_total_iff {K : Type} [DecidableEq K]
    {tables : List (List (Option K))} {i j : Nat} :
    (i, j) ∈ coincidencias_total tables ↔
      i < tables.length ∧ j ∈ coincidenciasDe tables i := by
  unfold coincidencias_total
  simp only [List.mem_flatten, List.mem_map, List.mem_range]
  constructor
  · rintro ⟨l, ⟨a, ha, rfl⟩, hm⟩
    obtain ⟨j2, hj2, he⟩ := List.mem_map.mp hm
    obtain ⟨rfl, rfl⟩ := Prod.mk.injEq .. |>.mp he
    exact ⟨ha, hj2⟩
  · rintro ⟨hi, hj⟩
    exact ⟨(coincidenciasDe tables i).map fun j2 => (i, j2), ⟨i, hi, rfl⟩,
      List.mem_map.mpr ⟨j, hj, rfl⟩⟩

theorem length_eq_one_of_nodup {l : List Nat} {i : Nat} (hnd : l.Nodup)
    (hm : i ∈ l) (hall : ∀ x ∈ l, x = i) : l.length = 1 := by
  cases l with
  | nil => simp at hm
  | cons a t =>
    cases t with
    | nil => rfl
    | cons b t2 =>
      have ha : a = i := hall a (List.mem_cons_self ..)
      have hb : b = i := hall b (List.mem_cons_of_mem _ (List.mem_cons_self ..))
      have hna : a ∉ b :: t2 := (List.nodup_cons.mp hnd).1
      exact absurd (by rw [ha, ← hb]; exact List.mem_cons_self ..) hna

theorem sort_dedup_eq_of_perm {l1 l2 : List (List Char)} (h : l1.Perm l2) :
    List.insertionSort (· ≤ ·) l1.dedup = List.insertionSort (· ≤ ·) l2.dedup :=
  List.eq_of_perm_of_sorted
    (((List.perm_insertionSort _ _).trans h.dedup).trans
      (List.perm_insertionSort _ _).symm)
    (List.sorted_insertionSort _ _) (List.sorted_insertionSort _ _)

/-! ### Claim theorems -/

/-- C6: under the priority policy the key is the first selected column
value (normalized when the flag is on) that passes the guard — nonempty
with lowercase text different from "nan" — and `None` when no column
passes; a field equal to "" or to "nan" never passes the guard, with or
without normalization. -/
theorem C6_prioridad_primera_valida (row : Nat → Option (List Char))
    (columnas : List Nat) (normalizar : Bool) :
    generar_clave_prioritaria row columnas normalizar =
      ((columnas.map fun c => aplicarNormalizacion normalizar (row c)).find?
        valorValido).join ∧
    (∀ n : Bool, valorValido (aplicarNormalizacion n (some [])) = false) ∧
    (∀ n : Bool, valorValido (aplicarNormalizacion n (some "nan".data)) = false) := by
  refine ⟨?_, by decide, by decide⟩
  induction columnas with
  | nil => rfl
  | cons col rest ih =>
    show (if valorValido (aplicarNormalizacion normalizar (row col)) then
        aplicarNormalizacion normalizar (row col)
      else generar_clave_prioritaria row rest normalizar) = _
    by_cases hv : valorValido (aplicarNormalizacion normalizar (row col))
    · rw [if_pos hv]
      simp [List.find?_cons, hv]
    · have hv2 : valorValido (aplicarNormalizacion normalizar (row col)) = false := by
        simpa using hv
      rw [if_neg hv, ih]
      simp [List.find?_cons, hv2]

/-- C3: the combined-policy key is invariant under any permutation of the
selected column list, while the priority-policy key is order-sensitive:
a concrete record and two permutations of the same columns give different
keys. -/
theorem C3_combinada_invariante_prioritaria_sensible :
    (∀ (row : Nat → Option (List Char)) (cols1 cols2 : List Nat) (n : Bool),
       cols1.Perm cols2 →
       generar_clave_combinada row cols1 n = generar_clave_combinada row cols2 n) ∧
    (∃ (row : Nat → Option (List Char)) (cols1 cols2 : List Nat),
       cols1.Perm cols2 ∧
       generar_clave_prioritaria row cols1 true ≠
         generar_clave_prioritaria row cols2 true) := by
  constructor
  · intro row cols1 cols2 n hp
    simp only [generar_clave_combinada]
    have h1 := hp.filterMap fun col =>
      if valorValido (row col) = true then
        some (if n = true then normalizar_valor (row col) else (row col).getD [])
      else none
    rw [h1.dedup.isEmpty_eq, sort_dedup_eq_of_perm h1]
  · refine ⟨fun i => if i = 0 then some "A".data else some "B".data,
      [0, 1], [1, 0], by decide, by decide⟩

/-- Witness for C3: the invariance applied to a concrete record and the
permutation [0, 1] ~ [1, 0]. -/
theorem C3_combinada_invariante_prioritaria_sensible_witness :
    (([0, 1] : List Nat).Perm [1, 0]) ∧
    generar_clave_combinada
        (fun i => if i = 0 then some "A".data else some "B".data) [0, 1] true =
      generar_clave_combinada
        (fun i => if i = 0 then some "A".data else some "B".data) [1, 0] true :=
  ⟨by decide, C3_combinada_invariante_prioritaria_sensible.1
    (fun i => if i = 0 then some "A".data else some "B".data) [0, 1] [1, 0] true
    (by decide)⟩

/-- C5: the value normalizer maps each of "1234-5678", "12345678" and
"1234.5678" to the canonical string "1234-5678", and maps a null/missing
input to the empty string.  (It is a total function of its input by
construction, so it raises no exception on any input.) -/
theorem C5_normalizador_canoniza :
    normalizar_valor (some "1234-5678".data) = "1234-5678".data ∧
    normalizar_valor (some "12345678".data) = "1234-5678".data ∧
    normalizar_valor (some "1234.5678".data) = "1234-5678".data ∧
    normalizar_valor none = [] := by
  refine ⟨?_, ?_, ?_, rfl⟩ <;> decide

/-- C9: whenever the API-side ISSN formatter returns a string, that string
has exactly 9 characters with a hyphen at position 4; otherwise it returns
`None`. -/
theorem C9_formato_issn_canonico (issn t : List Char)
    (h : formatear_issn_para_api issn = some t) :
    t.length = 9 ∧ t.getD 4 ' ' = '-' := by
  simp only [formatear_issn_para_api] at h
  by_cases h1 : (pyStrip (pyRemove ' ' (pyRemove '-' issn))).length = 8 ∧
      pyIsdigit (pyStrip (pyRemove ' ' (pyRemove '-' issn))) = true
  · rw [if_pos h1] at h
    obtain rfl := Option.some.inj h
    have h4 : ((pyStrip (pyRemove ' ' (pyRemove '-' issn))).take 4).length = 4 := by
      simp [List.length_take, h1.1]
    refine ⟨?_, ?_⟩
    · simp [List.length_take, List.length_drop, h1.1]
    · rw [List.getD_eq_getElem?_getD, List.getElem?_append_right (by omega)]
      simp [h4]
  · rw [if_neg h1] at h
    by_cases h2 : issn.length = 9 ∧ issn.getD 4 ' ' = '-'
    · rw [if_pos h2] at h
      obtain rfl := Option.some.inj h
      exact h2
    · rw [if_neg h2] at h
      exact absurd h (by simp)

/-- Witness for C9 at the concrete input "12345678". -/
theorem C9_formato_issn_canonico_witness :
    formatear_issn_para_api "12345678".data = some "1234-5678".data ∧
    ("1234-5678".data.length = 9 ∧ "1234-5678".data.getD 4 ' ' = '-') :=
  ⟨by decide, C9_formato_issn_canonico "12345678".data "1234-5678".data (by decide)⟩

/-- C7: for any positive batch size, the batching step splits the key list
into consecutive chunks of at most the batch size whose concatenation in
order is exactly the input list (so every key appears exactly once, in the
original order); with batch size 25 an input of 60 keys gives exactly 3
chunks, each of at most 25 keys.  (The source files hardcode
`batch_size = 50`; the split is the same loop for any size.) -/
theorem C7_lotes_particion {K : Type} (bs : Nat) (l : List K) (hbs : 0 < bs) :
    (listaEnLotes bs l).flatten = l ∧
    (∀ c ∈ listaEnLotes bs l, c.length ≤ bs) ∧
    (listaEnLotes 25 (List.range 60)).length = 3 ∧
    (∀ c ∈ listaEnLotes 25 (List.range 60), c.length ≤ 25) := by
  refine ⟨lotesAux_flatten hbs l.length l (Nat.le_refl _),
    fun c hc => lotesAux_mem_length l.length l c hc, by decide,
    fun c hc => lotesAux_mem_length _ _ c hc⟩

/-- Witness for C7 at batch size 25 and the 60-key input. -/
theorem C7_lotes_particion_witness :
    (0 : Nat) < 25 ∧ (listaEnLotes 25 (List.range 60)).flatten = List.range 60 :=
  ⟨by decide, (C7_lotes_particion 25 (List.range 60) (by decide)).1⟩

/-- C8: with a missing or invalid identifying email, the batch query
returns an empty result with no HTTP request issued, whatever the
responses would have been. -/
theorem C8_correo_invalido {K I : Type} (resp : Nat → RespuestaHttp I)
    (issn_list : List K) (correo : Option (List Char))
    (h : correoValido correo = false) :
    consultar_openalex_batch resp issn_list correo = ⟨[], []⟩ := by
  unfold consultar_openalex_batch
  by_cases he : issn_list.isEmpty <;> simp [he, h]

/-- Witness for C8: a `None` email with a nonempty key list. -/
theorem C8_correo_invalido_witness :
    correoValido none = false ∧
    consultar_openalex_batch (fun _ => RespuestaHttp.ok ([] : List Nat))
      [(0 : Nat)] none = ⟨[], []⟩ :=
  ⟨rfl, C8_correo_invalido (fun _ => RespuestaHttp.ok []) [0] none rfl⟩

/-- Counterexample for C4: a single batch that receives HTTP 429 is
requested exactly once — not retried — and its keys produce no results:
the batch IS silently dropped on a single 429, while the claim predicts a
second request for the same batch. -/
theorem C4_429_no_reintenta_counterexample :
    (consultar_openalex_batch (I := Nat) (fun _ => RespuestaHttp.rateLimited)
      [(0 : Nat), 1] (some "a@b".data)).requests = [[0, 1]] ∧
    (consultar_openalex_batch (I := Nat) (fun _ => RespuestaHttp.rateLimited)
      [(0 : Nat), 1] (some "a@b".data)).requests.length ≠ 2 ∧
    (consultar_openalex_batch (I := Nat) (fun _ => RespuestaHttp.rateLimited)
      [(0 : Nat), 1] (some "a@b".data)).resultados = [] := by
  refine ⟨by decide, by decide, by decide⟩

/-- C4 as amended: each batch is requested exactly once, in order,
whatever the responses; a rate-limited (429) batch contributes no items
(its keys are dropped after the fixed delay, because `continue` advances
the loop), and every non-200 response — 429 or otherwise — skips the
batch while processing continues with the remaining batches. -/
theorem C4_429_salta_lote (resp : Nat → RespuestaHttp I) (issn_list : List K)
    (correo : Option (List Char)) (h1 : issn_list ≠ [])
    (h2 : correoValido correo = true) :
    (consultar_openalex_batch resp issn_list correo).requests =
      listaEnLotes 50 issn_list ∧
    (consultar_openalex_batch resp issn_list correo).resultados =
      ((List.range (listaEnLotes 50 issn_list).length).map
        (itemsDeLote resp)).flatten ∧
    (∀ t, resp t = RespuestaHttp.rateLimited → itemsDeLote resp t = []) := by
  unfold consultar_openalex_batch
  rw [if_neg (by simp [h1]), if_neg (by simp [h2])]
  refine ⟨rfl, rfl, fun t ht => by simp [itemsDeLote, ht]⟩

/-- Witness for the amended C4: 60 keys in two batches; the first batch is
rate limited and dropped, the second still runs and delivers its item. -/
theorem C4_429_salta_lote_witness :
    ((List.range 60 : List Nat) ≠ []) ∧
    correoValido (some "a@b".data) = true ∧
    (consultar_openalex_batch
      (fun t => if t = 0 then RespuestaHttp.rateLimited else RespuestaHttp.ok [7])
      (List.range 60) (some "a@b".data)).requests =
        listaEnLotes 50 (List.range 60) ∧
    (consultar_openalex_batch
      (fun t => if t = 0 then RespuestaHttp.rateLimited else RespuestaHttp.ok [7])
      (List.range 60) (some "a@b".data)).resultados = [7] :=
  ⟨by decide, by decide,
    (C4_429_salta_lote _ _ _ (by decide) (by decide)).1,
    by decide⟩

/-- C1: every record position whose derived key is non-null lands in
exactly one of the two partitions — the tagged shared collection or the
exclusive collection of its own source — and a record with a null key
lands in neither. -/
theorem C1_particion_exacta {K : Type} [DecidableEq K]
    (tables : List (List (Option K))) (i j : Nat) :
    (∀ k, (clavesDe tables i).getD j none = some k →
       ((i, j) ∈ coincidencias_total tables ∧ j ∉ exclusivosDe tables i) ∨
       ((i, j) ∉ coincidencias_total tables ∧ j ∈ exclusivosDe tables i)) ∧
    ((clavesDe tables i).getD j none = none →
       (i, j) ∉ coincidencias_total tables ∧ j ∉ exclusivosDe tables i) := by
  constructor
  · intro k hk
    have hi := lt_of_clavesDe_getD hk
    have hpos := conteo_pos hi (getD_eq_some_mem hk)
    by_cases hcom : 1 < conteo tables k
    · left
      refine ⟨mem_coincidencias_total_iff.mpr ⟨hi, mem_coincidenciasDe_iff.mpr
        ⟨k, hk, by simp [esClaveComun, hcom]⟩⟩, ?_⟩
      intro hex
      obtain ⟨k2, hk2, he⟩ := mem_exclusivosDe_iff.mp hex
      rw [hk] at hk2
      obtain rfl := Option.some.inj hk2
      simp [esClaveExclusiva] at he
      omega
    · right
      have hone : conteo tables k = 1 := by omega
      refine ⟨?_, mem_exclusivosDe_iff.mpr ⟨k, hk, by simp [esClaveExclusiva, hone]⟩⟩
      intro hc
      obtain ⟨_, hj⟩ := mem_coincidencias_total_iff.mp hc
      obtain ⟨k2, hk2, he⟩ := mem_coincidenciasDe_iff.mp hj
      rw [hk] at hk2
      obtain rfl := Option.some.inj hk2
      simp [esClaveComun] at he
      omega
  · intro hnone
    constructor
    · intro hc
      obtain ⟨_, hj⟩ := mem_coincidencias_total_iff.mp hc
      obtain ⟨k, hk, _⟩ := mem_coincidenciasDe_iff.mp hj
      rw [hnone] at hk
      simp at hk
    · intro hex
      obtain ⟨k, hk, _⟩ := mem_exclusivosDe_iff.mp hex
      rw [hnone] at hk
      simp at hk

/-- Witness for C1: two tables sharing key 1; the record at position
(0, 0) is in exactly one partition. -/
theorem C1_particion_exacta_witness :
    ((0, 0) ∈ coincidencias_total [[some 1, none], [some 1]] ∧
      0 ∉ exclusivosDe [[some 1, none], [some 1]] 0) ∨
    ((0, 0) ∉ coincidencias_total [[some 1, none], [some 1]] ∧
      0 ∈ exclusivosDe [[some 1, none], [some 1]] 0) :=
  (C1_particion_exacta [[some 1, none], [some 1]] 0 0).1 1 rfl

/-- C2: a key is classified shared exactly when at least 2 distinct source
tables contain it; and when only one source contains the key — however
many records of that source carry it — the key is exclusive, never shared,
and every position carrying it falls in that source's exclusive partition. -/
theorem C2_clasificacion_por_fuentes {K : Type} [DecidableEq K]
    (tables : List (List (Option K))) (k : K) :
    (esClaveComun tables k = true ↔ 2 ≤ (fuentesDeClave tables k).card) ∧
    (∀ i, i < tables.length → some k ∈ clavesDe tables i →
       (∀ i2, i2 < tables.length → some k ∈ clavesDe tables i2 → i2 = i) →
       esClaveExclusiva tables k = true ∧ esClaveComun tables k = false ∧
       (∀ j, (clavesDe tables i).getD j none = some k →
          j ∈ exclusivosDe tables i)) := by
  have hnd : ((List.range tables.length).filter
      fun i => decide (some k ∈ clavesDe tables i)).Nodup :=
    (List.nodup_range _).filter _
  have hcard : (fuentesDeClave tables k).card = conteo tables k :=
    List.toFinset_card_of_nodup hnd
  constructor
  · rw [hcard]
    simp only [esClaveComun, decide_eq_true_eq]
    omega
  · intro i hi hm huniq
    have h1 : conteo tables k = 1 := by
      unfold conteo
      refine length_eq_one_of_nodup hnd
        (List.mem_filter.mpr ⟨List.mem_range.mpr hi, by simpa⟩) ?_
      intro x hx
      obtain ⟨hxr, hxc⟩ := List.mem_filter.mp hx
      exact huniq x (List.mem_range.mp hxr) (by simpa using hxc)
    refine ⟨by simp [esClaveExclusiva, h1], by simp [esClaveComun, h1], ?_⟩
    intro j hj
    exact mem_exclusivosDe_iff.mpr ⟨k, hj, by simp [esClaveExclusiva, h1]⟩

/-- Witness for C2: one source with two records carrying key 1 and no
other source: the key is exclusive, not shared, and both record positions
are in the exclusive partition. -/
theorem C2_clasificacion_por_fuentes_witness :
    esClaveExclusiva [[some 1, some 1]] 1 = true ∧
    esClaveComun [[some 1, some 1]] 1 = false ∧
    0 ∈ exclusivosDe [[some 1, some 1]] 0 ∧
    1 ∈ exclusivosDe [[some 1, some 1]] 0 :=
  ⟨((C2_clasificacion_por_fuentes [[some 1, some 1]] 1).2 0 (by decide)
      (by decide) (by decide)).1,
   ((C2_clasificacion_por_fuentes [[some 1, some 1]] 1).2 0 (by decide)
      (by decide) (by decide)).2.1,
   ((C2_clasificacion_por_fuentes [[some 1, some 1]] 1).2 0 (by decide)
      (by decide) (by decide)).2.2 0 rfl,
   ((C2_clasificacion_por_fuentes [[some 1, some 1]] 1).2 0 (by decide)
      (by decide) (by decide)).2.2 1 rfl⟩

/-- Counterexample for C10: the normalizer is not idempotent.  On the
input "A\t." the period removal exposes a trailing tab that the first
pass's strip never saw, so a second application strips further:
`normalizar_valor "A\t." = "A\t"` but `normalizar_valor "A\t" = "A"`. -/
theorem C10_no_idempotente_counterexample :
    normalizar_valor (some (normalizar_valor (some "A\t.".data))) ≠
      normalizar_valor (some "A\t.".data) := by decide

/-- C10 as amended: the normalizer is idempotent on every input whose
text contains no Python-whitespace character other than the space
character (in particular on every missing input and every
identifier-like string); only an embedded non-space whitespace
character (tab, LF, VT, FF, CR, ...) can break idempotence. -/
theorem C10_idempotente_sin_blancos (v : Option (List Char))
    (h : ∀ c ∈ v.getD [], pyIsSpace c = true → c = ' ') :
    normalizar_valor (some (normalizar_valor v)) = normalizar_valor v := by
  cases v with
  | none => decide
  | some s =>
    have hs : ∀ c ∈ s, pyIsSpace c = true → c = ' ' := by simpa using h
    obtain ⟨hws, hup, hdot, hsp⟩ := limpiar_char_facts hs
    have hfix := limpiar_fix hws hup hdot hsp
    by_cases hA : (limpiar s).length = 9 ∧ (limpiar s).getD 4 ' ' = '-'
    · have h1 : normalizar_valor (some s) = limpiar s := by
        simp only [normalizar_valor]
        rw [if_pos hA]
      rw [h1]
      simp only [normalizar_valor]
      rw [hfix, if_pos hA]
    · by_cases hB : pyIsdigit (limpiar s) = true ∧ (limpiar s).length = 8
      · have h1 : normalizar_valor (some s) =
            (limpiar s).take 4 ++ '-' :: (limpiar s).drop 4 := by
          simp only [normalizar_valor]
          rw [if_neg hA, if_pos hB]
        rw [h1]
        simp only [normalizar_valor]
        rw [limpiar_fix_guion hws hup hdot hsp]
        have h4 : ((limpiar s).take 4).length = 4 := by
          simp [List.length_take, hB.2]
        have hlen9 :
            ((limpiar s).take 4 ++ '-' :: (limpiar s).drop 4).length = 9 := by
          simp [List.length_take, List.length_drop, hB.2]
        have hg :
            ((limpiar s).take 4 ++ '-' :: (limpiar s).drop 4).getD 4 ' ' = '-' := by
          rw [List.getD_eq_getElem?_getD, List.getElem?_append_right (by omega)]
          simp [h4]
        rw [if_pos ⟨hlen9, hg⟩]
      · have h1 : normalizar_valor (some s) = limpiar s := by
          simp only [normalizar_valor]
          rw [if_neg hA, if_neg hB]
        rw [h1]
        simp only [normalizar_valor]
        rw [hfix, if_neg hA, if_neg hB]

/-- Witness for the amended C10 at the concrete input "1234.5678". -/
theorem C10_idempotente_sin_blancos_witness :
    normalizar_valor (some (normalizar_valor (some "1234.5678".data))) =
      normalizar_valor (some "1234.5678".data) :=
  C10_idempotente_sin_blancos (some "1234.5678".data) (by decide)
